import Mathlib

/-!
Shallow embedding of `hikka/inline/utils.py` (class `Utils`): the markup
compiler `_generate_markup`, the edit protocol `_edit_unit`, and the
lifecycle operations `_unload_unit` and `_delete_unit_message`.

Python dicts with a fixed key vocabulary are modeled as structures of
`Option` fields (`none` = key absent).  Transport calls are modeled against
an explicit oracle of responses carried in a `World`; sleeps and outgoing
calls are recorded as traces.  Functions from the parent package `utils`
module (`rand`, `check_url`, `get_kwargs`) are not under `src/` and are
modeled from the spec; each such definition says so in its doc comment.
-/

set_option autoImplicit false

namespace Hikka

/-- Python exception kinds that can surface from the embedded code. -/
inductive PyExc
  | typeError
  | attributeError
  | keyError
  | nameError
  | transportError
deriving DecidableEq, Repr

/-- A Python value in a media-parameter position (`photo`, `file`, ...).
Non-string values other than `bytes`/`BytesIO` collapse to `other`. -/
inductive PyVal
  | str (s : String)
  | bytes
  | buf
  | other
deriving DecidableEq, Repr

/-- Python `isinstance(v, str)`. -/
def PyVal.isStr : PyVal → Bool
  | .str _ => true
  | _ => false

/-- String content of a `PyVal`, defaulting to `""` for non-strings. -/
def strOfP : PyVal → String
  | .str s => s
  | _ => ""

/-- Python truthiness of an optional media value; empty strings are falsy,
`bytes`/`BytesIO`/`other` values are modeled as truthy. -/
def truthyV : Option PyVal → Bool
  | some (.str s) => s != ""
  | some _ => true
  | none => false

/-- Whether an optional media value is present and a string. -/
def isStrV : Option PyVal → Bool
  | some (.str _) => true
  | _ => false

/-- String content of an optional media value. -/
def strOf : Option PyVal → String
  | some (.str s) => s
  | _ => ""

/-- Python truthiness of an optional string (`None` and `""` are falsy). -/
def truthyS : Option String → Bool
  | some s => s != ""
  | none => false

/-- Modelled from the spec: `utils.check_url` (parent package, not under
`src/`) validates that a value is a well-formed URL.  Modeled as requiring
an explicit http or https scheme prefix. -/
def check_url (s : String) : Bool :=
  decide (s.data.take 7 = "http://".data) || decide (s.data.take 8 = "https://".data)

/-- Modelled from the spec: `utils.rand(n)` (parent package, not under
`src/`) mints a fresh random correlation token.  Modeled as drawing the next
token from an explicit supply stream; the requested length does not affect
the model. -/
def randTok (rng : List String) : String × List String :=
  (rng.headD "tok", rng.tail)

/-- One button dict.  Keys are modeled as `Option` fields (`none` = key
absent).  The `input` key's value is never read by the source, only its
presence, so it is a `Bool` presence flag.  `siqcc` and `siq` stand for the
`switch_inline_query_current_chat` and `switch_inline_query` keys; `cbData`
and `swQuery` for the minted `_callback_data` and `_switch_query` keys. -/
structure Button where
  text : Option String := none
  url : Option String := none
  callback : Option String := none
  input : Bool := false
  data : Option String := none
  siqcc : Option String := none
  siq : Option String := none
  cbData : Option String := none
  swQuery : Option String := none
  always_allow : Option (List Int) := none
  args : Option (List String) := none
  kwargs : Option (List (String × String)) := none
  force_me : Option Bool := none
  disable_security : Option Bool := none
deriving DecidableEq, Repr

/-- The empty Python dict as a button (falsy). -/
def emptyBtn : Button := {}

/-- An element of a markup row: a dict (button) or any non-dict value. -/
inductive Cell
  | btn (b : Button)
  | nd
deriving DecidableEq, Repr

/-- Whether a cell is a dict. -/
def Cell.isBtn : Cell → Bool
  | .btn _ => true
  | .nd => false

/-- A nested button matrix: rows of cells. -/
abbrev Mat := List (List Cell)

/-- A Python value in markup position: a dict, a flat list of non-list
elements, a list of lists, or anything else.  Lists mixing dicts and
sub-lists at top level are not modeled; no claim concerns them. -/
inductive MVal
  | dict (b : Button)
  | flat (l : List Cell)
  | nested (m : Mat)
  | other
deriving DecidableEq, Repr

/-- Python truthiness of a markup value; `other` is modeled as truthy. -/
def truthyM : MVal → Bool
  | .dict b => decide (b ≠ emptyBtn)
  | .flat l => !l.isEmpty
  | .nested m => !m.isEmpty
  | .other => true

/-- Whether a markup value is a Python list. -/
def MVal.isList : MVal → Bool
  | .flat _ => true
  | .nested _ => true
  | _ => false

/-- `_normalize_markup` (utils.py lines 214-223): a dict becomes one row of
one button; a flat list containing a dict becomes one row; everything else
passes through unchanged. -/
def _normalize_markup : MVal → MVal
  | .dict b => .nested [[Cell.btn b]]
  | .flat l => if l.any Cell.isBtn then .nested [l] else .flat l
  | .nested m => .nested m
  | .other => .other

/-- A callback registration stored in `self._custom_map` (utils.py lines
97-125).  Keys that the source includes only when truthy are modeled as
`none` / `false` when omitted. -/
structure Registration where
  handler : String
  always_allow : Option (List Int) := none
  args : Option (List String) := none
  kwargs : Option (List (String × String)) := none
  force_me : Bool := false
  disable_security : Bool := false
deriving DecidableEq, Repr

/-- The callback registry `self._custom_map` as an association list. -/
abbrev CMap := List (String × Registration)

/-- Python dict assignment `m[k] = v`: replace the existing entry or append. -/
def insertA (m : CMap) (k : String) (v : Registration) : CMap :=
  if m.any (fun p => p.1 = k) then
    m.map (fun p => if p.1 = k then (k, v) else p)
  else
    m ++ [(k, v)]

/-- A unit's teardown hook value: a callable that either returns or raises,
or a non-callable value stored under the `on_unload` key. -/
inductive Hook
  | fn (raises : Bool)
  | notCallable
deriving DecidableEq, Repr

/-- A stored unit dict in `self._units`. -/
structure UnitD where
  buttons : Option MVal := none
  force_me : Option Bool := none
  disable_security : Option Bool := none
  always_allow : Option (List Int) := none
  inline_message_id : Option String := none
  chat : Option Int := none
  message_id : Option Int := none
  on_unload : Option Hook := none
deriving DecidableEq, Repr

/-- The unit store `self._units` as an association list. -/
abbrev Units := List (String × UnitD)

/-- Dict lookup in the unit store. -/
def lookupU : Units → String → Option UnitD
  | [], _ => none
  | (k1, u) :: rest, k => if k1 = k then some u else lookupU rest k

/-- In-place mutation of the dict stored under an existing key (the source
never inserts into `self._units` here, it mutates the looked-up dict). -/
def updateU : Units → String → UnitD → Units
  | [], _, _ => []
  | (k1, u) :: rest, k, v =>
    if k1 = k then (k, v) :: updateU rest k v else (k1, u) :: updateU rest k v

/-- Dict deletion `del self._units[k]`. -/
def removeU (us : Units) (k : String) : Units :=
  us.filter (fun p => p.1 ≠ k)

/-- A compiled platform control (aiogram `InlineKeyboardButton`). -/
inductive IButton
  | urlBtn (text url : String)
  | cbBtn (text data : String)
  | switchBtn (text q : String)
deriving DecidableEq, Repr

/-- Result of `_generate_markup`: Python `None`, Python `False`, a compiled
keyboard, or an uncaught exception. -/
inductive GRes
  | noKb
  | fail
  | kb (rows : List (List IButton))
  | raised (e : PyExc)
deriving DecidableEq, Repr

/-- The state read and written by `_generate_markup`. -/
structure GState where
  units : Units
  custom_map : CMap
  rng : List String
deriving DecidableEq, Repr

/-- Token minting for one button (utils.py lines 65-70): a callback button
without `_callback_data` gets a fresh token and turns on `setup_callbacks`;
an input button without `_switch_query` gets a fresh token. -/
def mint1 (rng : List String) (b : Button) : Button × List String × Bool :=
  let p1 :=
    if b.callback.isSome && b.cbData.isNone then
      let t := randTok rng
      ({ b with cbData := some t.1 }, t.2, true)
    else (b, rng, false)
  let p2 :=
    if p1.1.input && p1.1.swQuery.isNone then
      let t := randTok p1.2.1
      ({ p1.1 with swQuery := some t.1 }, t.2)
    else (p1.1, p1.2.1)
  (p2.1, p2.2, p1.2.2)

/-- First loop of `_generate_markup` over one row (utils.py lines 59-70).
Returns the mutated row, the remaining token supply, whether any callback
token was minted, and `false` in the last component when a non-dict button
was hit (the source logs and returns `None` immediately, leaving the rest
of the matrix unprocessed). -/
def pass1Row (rng : List String) : List Cell → List Cell × List String × Bool × Bool
  | [] => ([], rng, false, true)
  | .nd :: rest => (.nd :: rest, rng, false, false)
  | .btn b :: rest =>
    let m := mint1 rng b
    let r := pass1Row m.2.1 rest
    (.btn m.1 :: r.1, r.2.1, m.2.2 || r.2.2.1, r.2.2.2)

/-- First loop of `_generate_markup` over the whole matrix. -/
def pass1 (rng : List String) : Mat → Mat × List String × Bool × Bool
  | [] => ([], rng, false, true)
  | row :: rest =>
    let r := pass1Row rng row
    if r.2.2.2 then
      let q := pass1 r.2.1 rest
      (r.1 :: q.1, q.2.1, r.2.2.1 || q.2.2.1, q.2.2.2)
    else
      (r.1 :: rest, r.2.1, r.2.2.1, false)

/-- Python truthiness of an optional list value. -/
def truthyL {α : Type} : Option (List α) → Bool
  | some l => !l.isEmpty
  | none => false

/-- The registration recorded for a callback button (utils.py lines 98-125):
optional keys are included only when the button's value is truthy. -/
def mkReg (b : Button) : Registration :=
  { handler := b.callback.getD ""
    always_allow := if truthyL b.always_allow then b.always_allow else none
    args := if truthyL b.args then b.args else none
    kwargs := if truthyL b.kwargs then b.kwargs else none
    force_me := b.force_me.getD false
    disable_security := b.disable_security.getD false }

/-- Translation of one button (utils.py lines 75-163): the `url` key takes
precedence, then `callback`, `input`, `data`, and the two switch-query keys;
a button with an invalid url or no recognized kind is dropped with a
warning; a missing `text` key raises `KeyError`.  Registry writes happen
only when `setup` is on (some callback token was minted this compile). -/
def translate1 (setup : Bool) (cm : CMap) (b : Button) :
    Except PyExc (List IButton) × CMap :=
  if b.url.isSome then
    if !check_url (b.url.getD "") then (.ok [], cm)
    else
      match b.text with
      | none => (.error .keyError, cm)
      | some t => (.ok [.urlBtn t (b.url.getD "")], cm)
  else if b.callback.isSome then
    match b.text with
    | none => (.error .keyError, cm)
    | some t =>
      match b.cbData with
      | none => (.error .keyError, cm)
      | some d =>
        (.ok [.cbBtn t d], if setup then insertA cm d (mkReg b) else cm)
  else if b.input then
    match b.text with
    | none => (.error .keyError, cm)
    | some t =>
      match b.swQuery with
      | none => (.error .keyError, cm)
      | some q => (.ok [.switchBtn t (q ++ " ")], cm)
  else if b.data.isSome then
    match b.text with
    | none => (.error .keyError, cm)
    | some t => (.ok [.cbBtn t (b.data.getD "")], cm)
  else if b.siqcc.isSome then
    match b.text with
    | none => (.error .keyError, cm)
    | some t => (.ok [.switchBtn t (b.siqcc.getD "")], cm)
  else if b.siq.isSome then
    match b.text with
    | none => (.error .keyError, cm)
    | some t => (.ok [.switchBtn t (b.siq.getD "")], cm)
  else (.ok [], cm)

/-- Second loop of `_generate_markup` over one row (utils.py lines 72-170).
A `KeyError` aborts immediately; registry writes made so far persist. -/
def pass2Row (setup : Bool) (cm : CMap) : List Cell → Except PyExc (List IButton) × CMap
  | [] => (.ok [], cm)
  | .nd :: _ => (.error .typeError, cm)
  | .btn b :: rest =>
    match translate1 setup cm b with
    | (.error e, cm1) => (.error e, cm1)
    | (.ok l1, cm1) =>
      match pass2Row setup cm1 rest with
      | (.error e, cm2) => (.error e, cm2)
      | (.ok l2, cm2) => (.ok (l1 ++ l2), cm2)

/-- Second loop of `_generate_markup` over the whole matrix; every completed
row is appended to the keyboard (empty rows included, as `markup.row()` with
no arguments appends an empty row). -/
def pass2 (setup : Bool) (cm : CMap) : Mat → Except PyExc (List (List IButton)) × CMap
  | [] => (.ok [], cm)
  | row :: rest =>
    match pass2Row setup cm row with
    | (.error e, cm1) => (.error e, cm1)
    | (.ok l, cm1) =>
      match pass2 setup cm1 rest with
      | (.error e, cm2) => (.error e, cm2)
      | (.ok rows, cm2) => (.ok (l :: rows), cm2)

/-- The `markup_obj` argument of `_generate_markup`: a unit name referring
into the store, or a literal markup value. -/
inductive GMIn
  | ref (uid : String)
  | val (v : MVal)
deriving DecidableEq, Repr

/-- `_generate_markup` (utils.py lines 39-174).  Returns the result, the
in-place-mutated matrix (the caller's list object, now carrying any minted
tokens), and the updated state.  A falsy `markup_obj` yields `None`; a
non-dict button yields `None`; a `KeyError` during translation yields
`False`; markup that is not a matrix after normalization raises when the
loops iterate it (non-list rows), modeled as `raised`. -/
def _generate_markup (st : GState) (mo : GMIn) : GRes × Mat × GState :=
  let tr : Bool :=
    match mo with
    | .ref s => s != ""
    | .val v => truthyM v
  if !tr then (.noKb, [], st)
  else
    let mapv : Except PyExc MVal :=
      match mo with
      | .ref s =>
        match lookupU st.units s with
        | none => .error .keyError
        | some u =>
          match u.buttons with
          | none => .error .keyError
          | some bv => .ok bv
      | .val v => .ok v
    match mapv with
    | .error e => (.raised e, [], st)
    | .ok v =>
      match _normalize_markup v with
      | .nested m =>
        let p := pass1 st.rng m
        if !p.2.2.2 then (.noKb, p.1, { st with rng := p.2.1 })
        else
          match pass2 p.2.2.1 st.custom_map p.1 with
          | (.error _, cm1) => (.fail, p.1, { st with rng := p.2.1, custom_map := cm1 })
          | (.ok rows, cm1) => (.kb rows, p.1, { st with rng := p.2.1, custom_map := cm1 })
      | _ => (.raised .typeError, [], st)

/-- A transport response from the messaging platform for one call:
success, or one of the typed failures the source distinguishes
(`MessageNotModified`, `RetryAfter`, `MessageIdInvalid`, `InvalidQueryID`),
or any other error. -/
inductive TResp
  | ok
  | notModified
  | retryAfter (d : Nat)
  | msgIdInvalid
  | invalidQueryID
  | err
deriving DecidableEq, Repr

/-- A built media payload (aiogram `InputMedia*`); carries the source value
and the caption (`parse_mode` is a constant and is omitted). -/
inductive Media
  | mPhoto (v : String) (caption : String)
  | mDoc (v : String) (caption : String)
  | mAudio (v : String) (caption : String)
  | mVideo (v : String) (caption : String)
  | mAnim (v : String) (caption : String)
deriving DecidableEq, Repr

/-- A transport call made by the embedded code, as recorded in the trace. -/
inductive TCall
  | editText (text : String) (imid : String) (dwpp : Bool) (rm : GRes)
  | editMedia (imid : String) (med : Media) (rm : GRes)
  | answer
  | deleteMessages (chat : Int) (mid : Int)
deriving DecidableEq, Repr

/-- The world: the unit store, the callback registry, the token supply, the
oracle of transport responses still to be consumed, and the traces of calls
made and sleeps performed. -/
structure World where
  units : Units
  custom_map : CMap
  rng : List String
  responses : List TResp
  calls : List TCall := []
  sleeps : List Nat := []
deriving DecidableEq, Repr

/-- Record an outgoing transport call. -/
def pushCall (c : TCall) (w : World) : World :=
  { w with calls := w.calls ++ [c] }

/-- Record a sleep of `d` seconds. -/
def pushSleep (d : Nat) (w : World) : World :=
  { w with sleeps := w.sleeps ++ [d] }

/-- Consume the next transport response; an exhausted oracle is treated as
a successful call. -/
def takeResp (w : World) : TResp × World :=
  match w.responses with
  | [] => (.ok, w)
  | r :: rest => (r, { w with responses := rest })

/-- An inbound callback query (`aiogram CallbackQuery`); only its
`inline_message_id` attribute is read by the embedded code. -/
structure CbQuery where
  inline_message_id : Option String := none
deriving DecidableEq, Repr

/-- The `reply_markup` argument of `_edit_unit`: `None`, a dict, a flat
list, a nested list, or any other value. -/
inductive RM
  | rnone
  | rdict (b : Button)
  | rflat (l : List Cell)
  | rnested (m : Mat)
  | rother
deriving DecidableEq, Repr

/-- Lines 245-248 of utils.py: lists and dicts are normalized, `None`
becomes `[[]]`, and any other value is left as it is. -/
def normRM : RM → MVal
  | .rnone => .nested [[]]
  | .rdict b => _normalize_markup (.dict b)
  | .rflat l => _normalize_markup (.flat l)
  | .rnested m => _normalize_markup (.nested m)
  | .rother => .other

/-- The arguments of one `_edit_unit` call.  `force_me` and `always_allow`
carry `none` for an omitted argument or one failing the source's
`isinstance` guard. -/
structure EditArgs where
  text : PyVal
  reply_markup : RM := .rnone
  photo : Option PyVal := none
  file : Option PyVal := none
  video : Option PyVal := none
  audio : Option PyVal := none
  gif : Option PyVal := none
  mime_type : Option String := none
  force_me : Option Bool := none
  disable_security : Option Bool := none
  always_allow : Option (List Int) := none
  disable_web_page_preview : Bool := true
  query : Option CbQuery := none
  unit_uid : Option String := none
  inline_message_id : Option String := none
deriving DecidableEq, Repr

/-- Outcome of one `_edit_unit` call: Python `None` (success), the explicit
failure value `False`, or an uncaught exception. -/
inductive EditOut
  | success
  | failure
  | raised (e : PyExc)
deriving DecidableEq, Repr

/-- The condition `x and (not isinstance(x, str) or not utils.check_url(x))`
used to reject `photo`, `gif`, `video` and `audio` values. -/
def badUrlV (v : Option PyVal) : Bool :=
  truthyV v && (!isStrV v || !check_url (strOf v))

/-- The number of media parameters that are not `None` (the count of `False`
entries of the source's `media_params` list, lines 284-290). -/
def mediaSetCount (a : EditArgs) : Nat :=
  [a.photo, a.gif, a.file, a.video, a.audio].countP Option.isSome

/-- The validation prefix of `_edit_unit` (utils.py lines 250-294), in
source order.  `some r` means the call ends with `r` before any state
mutation; `none` means validation passed.  The `file` check is
`isinstance(file, str, bytes, io.BytesIO)`: `isinstance` called with four
arguments raises `TypeError` whenever `file` is truthy, before the intended
type test or the `mime_type` check (which is therefore dead code) can run. -/
def validate (a : EditArgs) : Option EditOut :=
  if !a.text.isStr then some .failure
  else if badUrlV a.photo then some .failure
  else if badUrlV a.gif then some .failure
  else if truthyV a.file then some (.raised .typeError)
  else if truthyV a.file && a.mime_type.isNone then some .failure
  else if badUrlV a.video then some .failure
  else if badUrlV a.audio then some .failure
  else if mediaSetCount a > 1 then some .failure
  else none

/-- Merge of one optional field into the store (lines 301-308): the key is
overwritten when the argument passes its `isinstance` guard, kept otherwise. -/
def mergeO {α : Type} (arg old : Option α) : Option α :=
  match arg with
  | some b => some b
  | none => old

/-- Lines 296-308 of utils.py: when `unit_uid` names a stored unit, its
dict is mutated in place — `buttons` is overwritten unconditionally with the
normalized `reply_markup`, and the three security fields are overwritten
only when supplied.  `mergedU` is the mutated dict. -/
def mergedU (a : EditArgs) (rmn : MVal) (u : UnitD) : UnitD :=
  { u with
    buttons := some rmn
    force_me := mergeO a.force_me u.force_me
    disable_security := mergeO a.disable_security u.disable_security
    always_allow := mergeO a.always_allow u.always_allow }

/-- The store mutation itself, returning the new store and the updated entry. -/
def storeUpd (a : EditArgs) (rmn : MVal) (us : Units) : Units × Option (String × UnitD) :=
  match a.unit_uid with
  | some uid =>
    match lookupU us uid with
    | some u => (updateU us uid (mergedU a rmn u), some (uid, mergedU a rmn u))
    | none => (us, none)
  | none => (us, none)

/-- In-place mutation visibility: the list handed to `_generate_markup` is
the same object stored in `unit["buttons"]`, so minted tokens appear in the
store.  `remut` rebuilds the stored value from the mutated matrix. -/
def remut (v : MVal) (mat1 : Mat) : MVal :=
  match v with
  | .nested _ => .nested mat1
  | .flat _ => .flat (mat1.headD [])
  | x => x

/-- Write the token-mutated buttons back to the stored unit when the markup
argument aliased the stored list. -/
def aliasUpd (upd : Option (String × UnitD)) (isL : Bool) (rmn : MVal) (mat1 : Mat)
    (us : Units) : Units :=
  match upd with
  | some (uid, u2) =>
    if isL then updateU us uid { u2 with buttons := some (remut rmn mat1) } else us
  | none => us

/-- Everything `_edit_unit` does before its transport call. -/
inductive PreOut
  | done (r : EditOut)
  | sendText (imid : String) (txt : String) (dwpp : Bool) (mk : GRes)
  | sendMedia (imid : String) (med : Media) (mk : GRes)
deriving DecidableEq, Repr

/-- The front of `_edit_unit` (utils.py lines 245-376): normalization,
validation, the in-place store update, `inline_message_id` resolution
(raising `AttributeError` when the chain falls through to a `None` query),
markup compilation, and — on the media path — the payload build.  The
`ext` computation (lines 357-361) references the local `media` before any
assignment, so it raises `UnboundLocalError` which the bare `except`
swallows: `ext` is always `None` and the photo-to-animation reclassification
(lines 363-365) never fires. -/
def editPre (a : EditArgs) (w : World) : PreOut × World :=
  let rmn := normRM a.reply_markup
  match validate a with
  | some r => (.done r, w)
  | none =>
    let su := storeUpd a rmn w.units
    let w1 : World := { w with units := su.1 }
    let storedImid : Option String :=
      match su.2 with
      | some (_, u2) => u2.inline_message_id
      | none => none
    let imidRes : Except PyExc (Option String) :=
      if truthyS a.inline_message_id then .ok a.inline_message_id
      else if truthyS storedImid then .ok storedImid
      else
        match a.query with
        | none => .error .attributeError
        | some q => .ok q.inline_message_id
    match imidRes with
    | .error e => (.done (.raised e), w1)
    | .ok imv =>
      if !truthyS imv then (.done .failure, w1)
      else
        let imid := imv.getD ""
        let gmIn : GMIn :=
          if rmn.isList then .val rmn
          else
            match su.2 with
            | some (_, u2) =>
              match u2.buttons with
              | some bv => .val bv
              | none => .val (.flat [])
            | none => .val (.flat [])
        let g := _generate_markup ⟨w1.units, w1.custom_map, w1.rng⟩ gmIn
        let units2 := aliasUpd su.2 rmn.isList rmn g.2.1 g.2.2.units
        let w2 : World := { w1 with units := units2, custom_map := g.2.2.custom_map, rng := g.2.2.rng }
        match g.1 with
        | .raised e => (.done (.raised e), w2)
        | mk =>
          if mediaSetCount a = 0 then
            (.sendText imid (strOfP a.text) a.disable_web_page_preview mk, w2)
          else
            let ext : Option String := none
            let pg : Option PyVal × Option PyVal :=
              if a.photo.isSome && (ext == some ".gif" || ext == some ".mp4") then
                (none, a.photo)
              else (a.photo, a.gif)
            let cap := strOfP a.text
            let med : Option Media :=
              if a.file.isSome then some (.mDoc (strOf a.file) cap)
              else if pg.1.isSome then some (.mPhoto (strOf pg.1) cap)
              else if a.audio.isSome then some (.mAudio (strOf a.audio) cap)
              else if a.video.isSome then some (.mVideo (strOf a.video) cap)
              else if pg.2.isSome then some (.mAnim (strOf pg.2) cap)
              else none
            match med with
            | none => (.done (.raised .nameError), w2)
            | some md => (.sendMedia imid md mk, w2)

/-- The `MessageNotModified` handler of the text branch (lines 340-343):
`query.answer()` under `contextlib.suppress(InvalidQueryID)` — any other
error from the acknowledgment propagates. -/
def answerNotMod (a : EditArgs) (w : World) : EditOut × World :=
  match a.query with
  | none => (.success, w)
  | some _ =>
    let t := takeResp (pushCall .answer w)
    match t.1 with
    | .ok => (.success, t.2)
    | .invalidQueryID => (.success, t.2)
    | _ => (.raised .transportError, t.2)

/-- The `MessageIdInvalid` handler (lines 348-352 and 392-396):
`query.answer(...)` under `contextlib.suppress(Exception)`; with `query`
equal to `None` the attribute error is suppressed before any call is made,
otherwise the call is made and every outcome is suppressed. -/
def answerSuppressAll (a : EditArgs) (w : World) : World :=
  match a.query with
  | none => w
  | some _ => (takeResp (pushCall .answer w)).2

/-- The dispatch loop of `_edit_unit` with explicit fuel.  On `RetryAfter`
the source sleeps for the signalled duration and re-issues the call with
`**utils.get_kwargs()` — modelled from the spec (`get_kwargs` is in the
parent package, not under `src/`) as the original arguments `a`.  Each
retry consumes one transport response, so fuel `responses.length + 1`
always suffices; the fuel-0 branch is unreachable from `_edit_unit`. -/
def editUnitGo : Nat → EditArgs → World → EditOut × World
  | 0, _, w => (.failure, w)
  | n + 1, a, w =>
    match editPre a w with
    | (.done r, w1) => (r, w1)
    | (.sendText imid txt dwpp mk, w1) =>
      let t := takeResp (pushCall (.editText txt imid dwpp mk) w1)
      match t.1 with
      | .ok => (.success, t.2)
      | .notModified => answerNotMod a t.2
      | .retryAfter d => editUnitGo n a (pushSleep d t.2)
      | .msgIdInvalid => (.success, answerSuppressAll a t.2)
      | .invalidQueryID => (.raised .transportError, t.2)
      | .err => (.raised .transportError, t.2)
    | (.sendMedia imid md mk, w1) =>
      let t := takeResp (pushCall (.editMedia imid md mk) w1)
      match t.1 with
      | .ok => (.success, t.2)
      | .notModified => (.raised .transportError, t.2)
      | .retryAfter d => editUnitGo n a (pushSleep d t.2)
      | .msgIdInvalid => (.success, answerSuppressAll a t.2)
      | .invalidQueryID => (.raised .transportError, t.2)
      | .err => (.raised .transportError, t.2)

/-- `_edit_unit` (utils.py lines 225-396). -/
def _edit_unit (a : EditArgs) (w : World) : EditOut × World :=
  editUnitGo (w.responses.length + 1) a w

/-- `_unload_unit` (utils.py lines 416-435).  A missing uid raises
`KeyError` inside the `try`, caught and turned into `False`; a teardown
hook that raises is caught before the `del` runs, so the unit stays in the
store; a present uid with no hook, a non-callable hook value, or a hook
that returns is deleted and the call returns `True`. -/
def _unload_unit (us : Units) (call : Option CbQuery) (unit_uid : Option String) :
    Bool × Units :=
  match unit_uid with
  | none => (false, us)
  | some uid =>
    match lookupU us uid with
    | none => (false, us)
    | some u =>
      match u.on_unload with
      | some (.fn true) => (false, us)
      | _ => (true, removeU us uid)

/-- `_delete_unit_message` (utils.py lines 398-414).  The chat and message
id are read first (a missing uid or key raises `KeyError`, caught into
`False` with no transport call); then the remote delete is attempted; any
transport failure is caught into `False` with the store untouched; only on
success is `_unload_unit` invoked, after which the call returns `True`. -/
def _delete_unit_message (w : World) (call : Option CbQuery) (unit_uid : Option String) :
    Bool × World :=
  match unit_uid with
  | none => (false, w)
  | some uid =>
    match lookupU w.units uid with
    | none => (false, w)
    | some u =>
      match u.chat, u.message_id with
      | some c, some m =>
        let t := takeResp (pushCall (.deleteMessages c m) w)
        match t.1 with
        | .ok =>
          let r := _unload_unit t.2.units none (some uid)
          (true, { t.2 with units := r.2 })
        | _ => (false, t.2)
      | _, _ => (false, w)

/-- A cell is tokenized when a callback button already carries its
`_callback_data` token and an input button its `_switch_query` token. -/
def Cell.tokenized : Cell → Bool
  | .btn b => (!b.callback.isSome || b.cbData.isSome) && (!b.input || b.swQuery.isSome)
  | .nd => true

/-- The transport call a `PreOut` dispatch would make, if any. -/
def sendCall : PreOut → Option TCall
  | .done _ => none
  | .sendText imid txt dwpp mk => some (.editText txt imid dwpp mk)
  | .sendMedia imid md mk => some (.editMedia imid md mk)

/-- The stored unit under `uid` exists and carries exactly the merge of the
call's security fields over `old`, with its buttons overwritten. -/
def flagsMerged (a : EditArgs) (old : UnitD) (us : Units) (uid : String) : Prop :=
  ∃ u2, lookupU us uid = some u2
    ∧ u2.buttons.isSome = true
    ∧ u2.force_me = mergeO a.force_me old.force_me
    ∧ u2.disable_security = mergeO a.disable_security old.disable_security
    ∧ u2.always_allow = mergeO a.always_allow old.always_allow

/-! Concrete example values used by the witnesses and counterexamples. -/

/-- A world with one successful transport response. -/
def wOk : World := { units := [], custom_map := [], rng := [], responses := [.ok] }

/-- A world with no transport responses. -/
def wNil : World := { units := [], custom_map := [], rng := [], responses := [] }

/-- Edit arguments with `photo` and `file` both set. -/
def exPF : EditArgs :=
  { text := .str "hi"
    photo := some (.str "https://e.com/a.jpg")
    file := some (.str "https://e.com/a.zip")
    mime_type := some "application/zip"
    inline_message_id := some "im" }

/-- Edit arguments with `photo` and `video` both set and `file` omitted. -/
def exPV : EditArgs :=
  { text := .str "hi"
    photo := some (.str "https://e.com/a.jpg")
    video := some (.str "https://e.com/a.mp4")
    inline_message_id := some "im" }

/-- Edit arguments whose only media parameter is a `.gif` photo URL. -/
def exGif : EditArgs :=
  { text := .str "cap"
    photo := some (.str "https://example.com/a.gif")
    inline_message_id := some "im" }

/-- Edit arguments with a truthy `file` (and a `mime_type`). -/
def exFile : EditArgs :=
  { text := .str "hi"
    file := some (.str "https://e.com/a.zip")
    mime_type := some "application/zip" }

/-- Edit arguments with no explicit id, no unit and no query. -/
def exNoId : EditArgs := { text := .str "hi" }

/-- Edit arguments on unit "u" whose id chain falls through to a query
carrying no inline id. -/
def exC3cex : EditArgs :=
  { text := .str "t"
    unit_uid := some "u"
    force_me := some true
    query := some { inline_message_id := none } }

/-- A stored unit with buttons and `force_me := some false`. -/
def uC3 : UnitD :=
  { buttons := some (.nested [[.btn { text := some "x", data := some "d" }]])
    force_me := some false }

/-- A world storing `uC3` under "u", with no transport responses. -/
def wC3 : World := { units := [("u", uC3)], custom_map := [], rng := [], responses := [] }

/-- Edit arguments on unit "u" supplying `force_me` and an explicit id. -/
def exC3wit : EditArgs :=
  { text := .str "t"
    unit_uid := some "u"
    force_me := some true
    inline_message_id := some "im" }

/-- A stored unit with only `disable_security := some false`. -/
def uC3w : UnitD := { disable_security := some false }

/-- A world storing `uC3w` under "u", with one successful response. -/
def wC3w : World := { units := [("u", uC3w)], custom_map := [], rng := [], responses := [.ok] }

/-- A unit whose teardown hook raises. -/
def uHook : UnitD := { on_unload := some (.fn true) }

/-- A store holding `uHook` under "u". -/
def usHook : Units := [("u", uHook)]

/-- A unit with a chat and message id. -/
def uDel : UnitD := { chat := some 7, message_id := some 9 }

/-- A world storing `uDel` whose delete call will fail. -/
def wDelErr : World := { units := [("u", uDel)], custom_map := [], rng := [], responses := [.err] }

/-- A world storing `uDel` whose delete call will succeed. -/
def wDelOk : World := { units := [("u", uDel)], custom_map := [], rng := [], responses := [.ok] }

/-- A plain text edit with an explicit inline id. -/
def exRetry : EditArgs := { text := .str "hi", inline_message_id := some "im" }

/-- A world that rate-limits the first call for 5 seconds, then succeeds. -/
def wRetry : World :=
  { units := [], custom_map := [], rng := [], responses := [.retryAfter 5, .ok] }

/-- The world after the retry step: the rate-limited call recorded, 5s
slept, one response left. -/
def wRetry2 : World :=
  { units := []
    custom_map := []
    rng := []
    responses := [.ok]
    calls := [.editText "hi" "im" true (.kb [[]])]
    sleeps := [5] }

/-- A tokenized callback button. -/
def bTok : Button := { text := some "t", callback := some "h", cbData := some "k" }

/-- A compiler state with a one-token supply. -/
def stTok : GState := { units := [], custom_map := [], rng := ["r1"] }

/-- A compiler state with an empty token supply. -/
def stNil : GState := { units := [], custom_map := [], rng := [] }

/-- A button carrying both `url` and `callback` (already tokenized). -/
def bUC (t u hd tok : String) : Button :=
  { text := some t, url := some u, callback := some hd, cbData := some tok }

/-- The same ambiguous button without a `text` key. -/
def bUCnoText (u hd tok : String) : Button :=
  { url := some u, callback := some hd, cbData := some tok }

/-- A plain data button. -/
def bData : Button := { text := some "t", data := some "d" }

/-! Helper lemmas. -/

theorem mergeO_idem {α : Type} (x y : Option α) : mergeO x (mergeO x y) = mergeO x y := by
  cases x <;> rfl

theorem lookupU_updateU (us : Units) (k : String) (v : UnitD) :
    lookupU (updateU us k v) k = (lookupU us k).map (fun _ => v) := by
  induction us with
  | nil => rfl
  | cons p rest ih =>
    obtain ⟨k1, u⟩ := p
    by_cases h : k1 = k
    · subst h
      simp [lookupU, updateU, ih]
    · simp [lookupU, updateU, h, ih]

@[simp] theorem pushCall_units (c : TCall) (w : World) : (pushCall c w).units = w.units := rfl

@[simp] theorem pushCall_responses (c : TCall) (w : World) :
    (pushCall c w).responses = w.responses := rfl

@[simp] theorem pushSleep_units (d : Nat) (w : World) : (pushSleep d w).units = w.units := rfl

@[simp] theorem pushSleep_responses (d : Nat) (w : World) :
    (pushSleep d w).responses = w.responses := rfl

@[simp] theorem takeResp_units (w : World) : (takeResp w).2.units = w.units := by
  unfold takeResp
  split <;> rfl

theorem takeResp_retry (w w2 : World) (d : Nat) (h : takeResp w = (.retryAfter d, w2)) :
    w.responses = .retryAfter d :: w2.responses := by
  unfold takeResp at h
  rcases hw : w.responses with _ | ⟨x, rest⟩ <;> rw [hw] at h
  · simp at h
  · cases h
    rfl

@[simp] theorem answerNotMod_units (a : EditArgs) (w : World) :
    ((answerNotMod a w).2).units = w.units := by
  unfold answerNotMod
  split
  · rfl
  · dsimp only
    split <;> simp

@[simp] theorem answerSuppressAll_units (a : EditArgs) (w : World) :
    (answerSuppressAll a w).units = w.units := by
  unfold answerSuppressAll
  split
  · rfl
  · simp

theorem gen_units (st : GState) (mo : GMIn) : ((_generate_markup st mo).2.2).units = st.units := by
  simp only [_generate_markup]
  repeat' split <;> try rfl

theorem editPre_responses (a : EditArgs) (w : World) :
    (editPre a w).2.responses = w.responses := by
  simp only [editPre]
  repeat' split <;> try rfl

theorem storeUpd_found (a : EditArgs) (rmn : MVal) (us : Units) (uid : String) (u : UnitD)
    (hu : a.unit_uid = some uid) (hl : lookupU us uid = some u) :
    storeUpd a rmn us = (updateU us uid (mergedU a rmn u), some (uid, mergedU a rmn u)) := by
  unfold storeUpd
  rw [hu]
  dsimp only
  rw [hl]

theorem aliasUpd_flags (a : EditArgs) (rmn : MVal) (u : UnitD) (uid : String) (isL : Bool)
    (mat1 : Mat) (us : Units)
    (hlk : lookupU us uid = some (mergedU a rmn u)) :
    flagsMerged a u (aliasUpd (some (uid, mergedU a rmn u)) isL rmn mat1 us) uid := by
  unfold aliasUpd
  cases isL with
  | false => exact ⟨mergedU a rmn u, hlk, rfl, rfl, rfl, rfl⟩
  | true =>
    refine ⟨{ mergedU a rmn u with buttons := some (remut rmn mat1) }, ?_, rfl, rfl, rfl, rfl⟩
    simp only [if_true]
    rw [lookupU_updateU, hlk]
    rfl

theorem editPre_flags (a : EditArgs) (w : World) (uid : String) (u : UnitD)
    (hv : validate a = none) (hu : a.unit_uid = some uid)
    (hl : lookupU w.units uid = some u) :
    flagsMerged a u (editPre a w).2.units uid := by
  have hlook : lookupU (updateU w.units uid (mergedU a (normRM a.reply_markup) u)) uid
      = some (mergedU a (normRM a.reply_markup) u) := by
    rw [lookupU_updateU, hl]
    rfl
  simp only [editPre, hv, storeUpd_found a (normRM a.reply_markup) w.units uid u hu hl]
  repeat' split
  all_goals
    first
      | exact ⟨mergedU a (normRM a.reply_markup) u, hlook, rfl, rfl, rfl, rfl⟩
      | (apply aliasUpd_flags
         rw [gen_units]
         exact hlook)

theorem editUnitGo_flags (n : Nat) (a : EditArgs) (w : World) (uid : String) (u : UnitD)
    (hn : w.responses.length + 1 ≤ n)
    (hv : validate a = none) (hu : a.unit_uid = some uid)
    (hl : lookupU w.units uid = some u) :
    flagsMerged a u (editUnitGo n a w).2.units uid := by
  induction n generalizing w u with
  | zero => omega
  | succ n ih =>
    have hlen : w.responses.length ≤ n := by omega
    rcases hpre : editPre a w with ⟨p, w1⟩
    have hw1resp : w1.responses = w.responses := by
      have h0 := editPre_responses a w
      rw [hpre] at h0
      exact h0
    have hfl : flagsMerged a u w1.units uid := by
      have h0 := editPre_flags a w uid u hv hu hl
      rw [hpre] at h0
      exact h0
    simp only [editUnitGo]
    rw [hpre]
    cases p with
    | done r => exact hfl
    | sendText imid txt dwpp mk =>
      rcases htr : takeResp (pushCall (.editText txt imid dwpp mk) w1) with ⟨r, w2⟩
      have hw2u : w2.units = w1.units := by
        have h0 : (takeResp (pushCall (.editText txt imid dwpp mk) w1)).2.units = w1.units := by
          simp
        rw [htr] at h0
        exact h0
      dsimp only
      rw [htr]
      cases r with
      | ok =>
        dsimp only
        rw [hw2u]
        exact hfl
      | notModified =>
        dsimp only
        rw [answerNotMod_units, hw2u]
        exact hfl
      | retryAfter d =>
        dsimp only
        have hresp : w1.responses = .retryAfter d :: w2.responses := by
          have h0 := takeResp_retry _ w2 d htr
          simpa using h0
        obtain ⟨u2, hlu2, hb2, hf2, hd2, ha2⟩ := hfl
        have hlen2 : (pushSleep d w2).responses.length + 1 ≤ n := by
          have : w.responses.length = w2.responses.length + 1 := by
            rw [← hw1resp, hresp]
            simp
          simp only [pushSleep_responses]
          omega
        have hlu2s : lookupU (pushSleep d w2).units uid = some u2 := by
          rw [pushSleep_units, hw2u]
          exact hlu2
        obtain ⟨u3, h3, hb3, hf3, hd3, ha3⟩ := ih (pushSleep d w2) u2 hlen2 hlu2s
        exact ⟨u3, h3, hb3,
          by rw [hf3, hf2, mergeO_idem],
          by rw [hd3, hd2, mergeO_idem],
          by rw [ha3, ha2, mergeO_idem]⟩
      | msgIdInvalid =>
        dsimp only
        rw [answerSuppressAll_units, hw2u]
        exact hfl
      | invalidQueryID =>
        dsimp only
        rw [hw2u]
        exact hfl
      | err =>
        dsimp only
        rw [hw2u]
        exact hfl
    | sendMedia imid md mk =>
      rcases htr : takeResp (pushCall (.editMedia imid md mk) w1) with ⟨r, w2⟩
      have hw2u : w2.units = w1.units := by
        have h0 : (takeResp (pushCall (.editMedia imid md mk) w1)).2.units = w1.units := by
          simp
        rw [htr] at h0
        exact h0
      dsimp only
      rw [htr]
      cases r with
      | ok =>
        dsimp only
        rw [hw2u]
        exact hfl
      | notModified =>
        dsimp only
        rw [hw2u]
        exact hfl
      | retryAfter d =>
        dsimp only
        have hresp : w1.responses = .retryAfter d :: w2.responses := by
          have h0 := takeResp_retry _ w2 d htr
          simpa using h0
        obtain ⟨u2, hlu2, hb2, hf2, hd2, ha2⟩ := hfl
        have hlen2 : (pushSleep d w2).responses.length + 1 ≤ n := by
          have : w.responses.length = w2.responses.length + 1 := by
            rw [← hw1resp, hresp]
            simp
          simp only [pushSleep_responses]
          omega
        have hlu2s : lookupU (pushSleep d w2).units uid = some u2 := by
          rw [pushSleep_units, hw2u]
          exact hlu2
        obtain ⟨u3, h3, hb3, hf3, hd3, ha3⟩ := ih (pushSleep d w2) u2 hlen2 hlu2s
        exact ⟨u3, h3, hb3,
          by rw [hf3, hf2, mergeO_idem],
          by rw [hd3, hd2, mergeO_idem],
          by rw [ha3, ha2, mergeO_idem]⟩
      | msgIdInvalid =>
        dsimp only
        rw [answerSuppressAll_units, hw2u]
        exact hfl
      | invalidQueryID =>
        dsimp only
        rw [hw2u]
        exact hfl
      | err =>
        dsimp only
        rw [hw2u]
        exact hfl

theorem mint1_tokenized (rng : List String) (b : Button)
    (h : Cell.tokenized (.btn b) = true) : mint1 rng b = (b, rng, false) := by
  unfold Cell.tokenized at h
  simp only [Bool.and_eq_true, Bool.or_eq_true, Bool.not_eq_true'] at h
  obtain ⟨h1, h2⟩ := h
  unfold mint1
  have hc : (b.callback.isSome && b.cbData.isNone) = false := by
    rcases h1 with h1 | h1
    · simp [h1]
    · cases hb : b.cbData <;> simp_all
  have hi : (b.input && b.swQuery.isNone) = false := by
    rcases h2 with h2 | h2
    · simp [h2]
    · cases hb : b.swQuery <;> simp_all
  simp [hc, hi]

theorem pass1Row_tokenized (rng : List String) (row : List Cell)
    (h : ∀ c ∈ row, Cell.tokenized c = true) :
    ∃ ok, pass1Row rng row = (row, rng, false, ok) := by
  induction row with
  | nil => exact ⟨true, rfl⟩
  | cons c rest ih =>
    cases c with
    | nd => exact ⟨false, rfl⟩
    | btn b =>
      have hm := mint1_tokenized rng b (h _ (by simp))
      obtain ⟨ok, hok⟩ := ih (fun c hc => h c (by simp [hc]))
      exact ⟨ok, by simp [pass1Row, hm, hok]⟩

theorem pass1_tokenized (rng : List String) (m : Mat)
    (h : ∀ row ∈ m, ∀ c ∈ row, Cell.tokenized c = true) :
    ∃ ok, pass1 rng m = (m, rng, false, ok) := by
  induction m with
  | nil => exact ⟨true, rfl⟩
  | cons row rest ih =>
    obtain ⟨ok1, h1⟩ := pass1Row_tokenized rng row (h row (by simp))
    obtain ⟨ok2, h2⟩ := ih (fun r hr c hc => h r (by simp [hr]) c hc)
    cases ok1 with
    | false => exact ⟨false, by simp [pass1, h1]⟩
    | true => exact ⟨ok2, by simp [pass1, h1, h2]⟩

theorem translate1_nosetup (cm : CMap) (b : Button) : (translate1 false cm b).2 = cm := by
  unfold translate1
  by_cases h1 : b.url.isSome = true
  · rw [if_pos h1]
    by_cases h2 : (!check_url (b.url.getD "")) = true
    · rw [if_pos h2]
    · rw [if_neg h2]
      cases b.text <;> rfl
  · rw [if_neg h1]
    by_cases h3 : b.callback.isSome = true
    · rw [if_pos h3]
      cases b.text with
      | none => rfl
      | some t => cases b.cbData <;> rfl
    · rw [if_neg h3]
      by_cases h4 : b.input = true
      · rw [if_pos h4]
        cases b.text with
        | none => rfl
        | some t => cases b.swQuery <;> rfl
      · rw [if_neg h4]
        by_cases h5 : b.data.isSome = true
        · rw [if_pos h5]
          cases b.text <;> rfl
        · rw [if_neg h5]
          by_cases h6 : b.siqcc.isSome = true
          · rw [if_pos h6]
            cases b.text <;> rfl
          · rw [if_neg h6]
            by_cases h7 : b.siq.isSome = true
            · rw [if_pos h7]
              cases b.text <;> rfl
            · rw [if_neg h7]

theorem pass2Row_nosetup (cm : CMap) (row : List Cell) : (pass2Row false cm row).2 = cm := by
  induction row generalizing cm with
  | nil => rfl
  | cons c rest ih =>
    cases c with
    | nd => rfl
    | btn b =>
      rcases h1 : translate1 false cm b with ⟨res, cm1⟩
      have ht : cm1 = cm := by
        have h0 := translate1_nosetup cm b
        rw [h1] at h0
        exact h0
      subst ht
      cases res with
      | error e => simp [pass2Row, h1]
      | ok l1 =>
        rcases h2 : pass2Row false cm1 rest with ⟨res2, cm2⟩
        have hr : cm2 = cm1 := by
          have h0 := ih cm1
          rw [h2] at h0
          exact h0
        subst hr
        cases res2 <;> simp [pass2Row, h1, h2]

theorem pass2_nosetup (cm : CMap) (m : Mat) : (pass2 false cm m).2 = cm := by
  induction m generalizing cm with
  | nil => rfl
  | cons row rest ih =>
    rcases h1 : pass2Row false cm row with ⟨res, cm1⟩
    have ht : cm1 = cm := by
      have h0 := pass2Row_nosetup cm row
      rw [h1] at h0
      exact h0
    subst ht
    cases res with
    | error e => simp [pass2, h1]
    | ok l =>
      rcases h2 : pass2 false cm1 rest with ⟨res2, cm2⟩
      have hr : cm2 = cm1 := by
        have h0 := ih cm1
        rw [h2] at h0
        exact h0
      subst hr
      cases res2 <;> simp [pass2, h1, h2]

theorem pass1Row_nd (rng : List String) (row : List Cell) (h : Cell.nd ∈ row) :
    (pass1Row rng row).2.2.2 = false := by
  induction row generalizing rng with
  | nil => simp at h
  | cons c rest ih =>
    cases c with
    | nd => simp [pass1Row]
    | btn b =>
      have hmem : Cell.nd ∈ rest := by
        rcases List.mem_cons.mp h with h0 | h0
        · exact absurd h0 (by simp)
        · exact h0
      simp [pass1Row, ih _ hmem]

theorem pass1_nd (rng : List String) (m : Mat) (h : ∃ row ∈ m, Cell.nd ∈ row) :
    (pass1 rng m).2.2.2 = false := by
  induction m generalizing rng with
  | nil => simp at h
  | cons row rest ih =>
    rcases h with ⟨r, hr, hc⟩
    rcases List.mem_cons.mp hr with h0 | h0
    · subst h0
      have := pass1Row_nd rng r hc
      simp [pass1, this]
    · by_cases hok : (pass1Row rng row).2.2.2 = true
      · simp only [pass1, hok, if_true]
        exact ih _ ⟨r, h0, hc⟩
      · have : (pass1Row rng row).2.2.2 = false := by
          revert hok
          cases (pass1Row rng row).2.2.2 <;> simp
        simp [pass1, this]

theorem validate_two_media (a : EditArgs) (h2 : 2 ≤ mediaSetCount a)
    (hf : truthyV a.file = false) : validate a = some .failure := by
  unfold validate
  split_ifs with g1 g2 g3 g4 g5 g6 g7 g8 <;>
    first
      | rfl
      | (exfalso; simp_all; done)
      | (exfalso; simp_all; omega)

/-- One unfolding step of the dispatch loop. -/
theorem editUnitGo_succ (n : Nat) (a : EditArgs) (w : World) :
    editUnitGo (n + 1) a w =
      match editPre a w with
      | (.done r, w1) => (r, w1)
      | (.sendText imid txt dwpp mk, w1) =>
        let t := takeResp (pushCall (.editText txt imid dwpp mk) w1)
        match t.1 with
        | .ok => (.success, t.2)
        | .notModified => answerNotMod a t.2
        | .retryAfter d => editUnitGo n a (pushSleep d t.2)
        | .msgIdInvalid => (.success, answerSuppressAll a t.2)
        | .invalidQueryID => (.raised .transportError, t.2)
        | .err => (.raised .transportError, t.2)
      | (.sendMedia imid md mk, w1) =>
        let t := takeResp (pushCall (.editMedia imid md mk) w1)
        match t.1 with
        | .ok => (.success, t.2)
        | .notModified => (.raised .transportError, t.2)
        | .retryAfter d => editUnitGo n a (pushSleep d t.2)
        | .msgIdInvalid => (.success, answerSuppressAll a t.2)
        | .invalidQueryID => (.raised .transportError, t.2)
        | .err => (.raised .transportError, t.2) := rfl

/-! The claims. -/

/-- Claim C1, amended: for every edit call in which two or more of the
mutually exclusive media parameters are set (non-None) and the `file`
parameter is not truthy, the call returns the explicit failure value
`False`, no transport call is made, and the world — in particular the unit
store — is unchanged.  (When `file` is truthy the broken four-argument
`isinstance` call raises `TypeError` first; see the counterexample.) -/
theorem edit_two_media_rejected_before_effects (a : EditArgs) (w : World)
    (h2 : 2 ≤ mediaSetCount a) (hf : truthyV a.file = false) :
    _edit_unit a w = (.failure, w) := by
  have hv := validate_two_media a h2 hf
  have hpre : editPre a w = (.done .failure, w) := by
    unfold editPre
    rw [hv]
  unfold _edit_unit
  rw [editUnitGo_succ, hpre]

/-- Claim C1, counterexample: with `photo` and `file` both set (two
exclusive media parameters), the call raises `TypeError` out of the broken
`isinstance(file, str, bytes, io.BytesIO)` check instead of returning the
failure value `False` the claim requires. -/
theorem edit_two_media_with_file_raises :
    (_edit_unit exPF wOk).1 = .raised .typeError
    ∧ EditOut.raised .typeError ≠ .failure :=
  ⟨rfl, by decide⟩

/-- Claim C1, witness: `photo` and `video` both set with `file` omitted
returns `False` and leaves the world untouched. -/
theorem edit_two_media_rejected_witness :
    2 ≤ mediaSetCount exPV
    ∧ truthyV exPV.file = false
    ∧ _edit_unit exPV wOk = (.failure, wOk) :=
  ⟨by decide, rfl, edit_two_media_rejected_before_effects exPV wOk (by decide) rfl⟩

/-- Claim C2: the photo-to-animation reclassification never fires, because
the `ext` computation inspects the unbound local `media` and the resulting
`UnboundLocalError` is swallowed into `ext = None`.  An edit whose only
media parameter is a `photo` with a `.gif` URL therefore sends an
`InputMediaPhoto` payload, not an `InputMediaAnimation`, contradicting the
claim (and the source's own `# If passed photo is gif` comment). -/
theorem edit_gif_photo_sent_as_photo :
    _edit_unit exGif wOk
      = (.success,
         { units := []
           custom_map := []
           rng := []
           responses := []
           calls := [.editMedia "im" (.mPhoto "https://example.com/a.gif" "cap") (.kb [[]])]
           sleeps := [] }) := rfl

/-- Claim C3, amended: when `unit_uid` names a stored unit and validation
passes, the stored unit's `force_me` / `disable_security` / `always_allow`
fields end up merged — overwritten exactly when the corresponding argument
was supplied, kept otherwise — and its `buttons` key is (re)written; this
holds for the final store of the whole call, whatever its outcome, because
the update happens before `inline_message_id` resolution and before any
transport call. -/
theorem edit_unit_flags_merge_only_supplied (a : EditArgs) (w : World) (uid : String)
    (u : UnitD) (hv : validate a = none) (hu : a.unit_uid = some uid)
    (hl : lookupU w.units uid = some u) :
    ∃ u2, lookupU (_edit_unit a w).2.units uid = some u2
      ∧ u2.buttons.isSome = true
      ∧ u2.force_me = mergeO a.force_me u.force_me
      ∧ u2.disable_security = mergeO a.disable_security u.disable_security
      ∧ u2.always_allow = mergeO a.always_allow u.always_allow :=
  editUnitGo_flags (w.responses.length + 1) a w uid u (Nat.le_refl _) hv hu hl

/-- Claim C3, counterexample: an edit that fails (unresolvable
`inline_message_id`) has already mutated the stored unit — `force_me` was
merged and the stored buttons were overwritten by the omitted
`reply_markup`'s default `[[]]` — contradicting "when the edit returns
failure the stored unit is unchanged" and "no stored field is cleared by an
omitted argument". -/
theorem edit_failure_still_mutates_store :
    (_edit_unit exC3cex wC3).1 = .failure
    ∧ lookupU (_edit_unit exC3cex wC3).2.units "u"
        = some { buttons := some (.nested [[]]), force_me := some true }
    ∧ ({ buttons := some (.nested [[]]), force_me := some true } : UnitD) ≠ uC3 :=
  ⟨rfl, rfl, by decide⟩

/-- Claim C3, witness: a successful edit on a stored unit with
`force_me := some true` supplied and the other two flags omitted. -/
theorem edit_unit_flags_merge_witness :
    validate exC3wit = none
    ∧ exC3wit.unit_uid = some "u"
    ∧ lookupU wC3w.units "u" = some uC3w
    ∧ ∃ u2, lookupU (_edit_unit exC3wit wC3w).2.units "u" = some u2
        ∧ u2.buttons.isSome = true
        ∧ u2.force_me = mergeO exC3wit.force_me uC3w.force_me
        ∧ u2.disable_security = mergeO exC3wit.disable_security uC3w.disable_security
        ∧ u2.always_allow = mergeO exC3wit.always_allow uC3w.always_allow :=
  ⟨rfl, rfl, rfl,
    edit_unit_flags_merge_only_supplied exC3wit wC3w "u" uC3w rfl rfl rfl⟩

/-- Claim C4, amended: Unload on an absent uid returns `False` without
raising; Unload on a present uid whose teardown hook raises returns `False`
but the unit is NOT removed — the `del` sits after the hook call inside the
same `try`, so the exception skips it and the unit stays in the store. -/
theorem unload_missing_and_raising_hook (us : Units) (uid : String) :
    (lookupU us uid = none → _unload_unit us none (some uid) = (false, us))
    ∧ ∀ u, lookupU us uid = some u → u.on_unload = some (.fn true) →
        _unload_unit us none (some uid) = (false, us) := by
  constructor
  · intro h
    unfold _unload_unit
    dsimp only
    rw [h]
  · intro u hu hh
    unfold _unload_unit
    dsimp only
    rw [hu]
    dsimp only
    rw [hh]

/-- Claim C4, counterexample: a raising hook leaves the unit in the store,
refuting "returns failure but still removes the unit from the store". -/
theorem unload_raising_hook_keeps_unit :
    _unload_unit usHook none (some "u") = (false, usHook)
    ∧ lookupU usHook "u" = some uHook :=
  ⟨rfl, rfl⟩

/-- Claim C4, witness: both amended parts at concrete inputs — a missing
uid, and a present uid whose hook raises. -/
theorem unload_missing_and_raising_hook_witness :
    _unload_unit usHook none (some "v") = (false, usHook)
    ∧ _unload_unit usHook none (some "u") = (false, usHook) :=
  ⟨(unload_missing_and_raising_hook usHook "v").1 rfl,
   (unload_missing_and_raising_hook usHook "u").2 uHook rfl rfl⟩

/-- Claim C5: Delete never unloads before the remote delete is confirmed —
when the transport delete fails the call returns `False` with the unit
store untouched (only the delete call was made), and only when the delete
succeeds is `_unload_unit` performed. -/
theorem delete_failure_preserves_unit (w : World) (call : Option CbQuery) (uid : String)
    (u : UnitD) (c m : Int) (r : TResp) (rest : List TResp)
    (hl : lookupU w.units uid = some u) (hc : u.chat = some c) (hm : u.message_id = some m)
    (hr : w.responses = r :: rest) :
    (r ≠ .ok → _delete_unit_message w call (some uid)
        = (false,
           { w with
             responses := rest
             calls := w.calls ++ [.deleteMessages c m] }))
    ∧ (r = .ok → _delete_unit_message w call (some uid)
        = (true,
           { w with
             responses := rest
             calls := w.calls ++ [.deleteMessages c m]
             units := (_unload_unit w.units none (some uid)).2 })) := by
  have hts : takeResp (pushCall (.deleteMessages c m) w)
      = (r,
         { w with
           responses := rest
           calls := w.calls ++ [.deleteMessages c m] }) := by
    unfold takeResp pushCall
    dsimp only
    rw [hr]
  unfold _delete_unit_message
  dsimp only
  rw [hl]
  dsimp only
  rw [hc, hm]
  dsimp only
  rw [hts]
  constructor
  · intro hne
    cases r with
    | ok => exact absurd rfl hne
    | notModified => rfl
    | retryAfter d => rfl
    | msgIdInvalid => rfl
    | invalidQueryID => rfl
    | err => rfl
  · intro he
    subst he
    rfl

/-- Claim C5, witness: a failing and a succeeding remote delete on a
one-unit store. -/
theorem delete_failure_preserves_unit_witness :
    _delete_unit_message wDelErr none (some "u")
      = (false,
         { units := [("u", uDel)]
           custom_map := []
           rng := []
           responses := []
           calls := [.deleteMessages 7 9] })
    ∧ _delete_unit_message wDelOk none (some "u")
      = (true,
         { units := []
           custom_map := []
           rng := []
           responses := []
           calls := [.deleteMessages 7 9] }) :=
  ⟨(delete_failure_preserves_unit wDelErr none "u" uDel 7 9 .err [] rfl rfl rfl rfl).1
     (by decide),
   (delete_failure_preserves_unit wDelOk none "u" uDel 7 9 .ok [] rfl rfl rfl rfl).2 rfl⟩

/-- Claim C6: when the dispatched transport call signals rate-limited with
backoff `d`, the edit sleeps exactly `d` (recorded in the sleep trace) and
re-issues the same edit call with the original arguments `a`; the overall
call is equal to — yields exactly the outcome and final world of — that
retry. -/
theorem edit_retry_after_flood (a : EditArgs) (w w1 : World) (p : PreOut) (c : TCall)
    (d : Nat) (rest : List TResp)
    (hpre : editPre a w = (p, w1)) (hc : sendCall p = some c)
    (hresp : w.responses = .retryAfter d :: rest) :
    _edit_unit a w
      = _edit_unit a
          { w1 with
            responses := rest
            calls := w1.calls ++ [c]
            sleeps := w1.sleeps ++ [d] } := by
  have hw1r : w1.responses = w.responses := by
    have h0 := editPre_responses a w
    rw [hpre] at h0
    exact h0
  have hrhs : _edit_unit a
      { w1 with
        responses := rest
        calls := w1.calls ++ [c]
        sleeps := w1.sleeps ++ [d] }
      = editUnitGo (rest.length + 1) a
          { w1 with
            responses := rest
            calls := w1.calls ++ [c]
            sleeps := w1.sleeps ++ [d] } := rfl
  rw [hrhs]
  unfold _edit_unit
  rw [hresp]
  simp only [List.length_cons]
  cases p with
  | done r => simp [sendCall] at hc
  | sendText imid txt dwpp mk =>
    have hceq : TCall.editText txt imid dwpp mk = c := by
      simpa [sendCall] using hc
    subst hceq
    have hts : takeResp (pushCall (.editText txt imid dwpp mk) w1)
        = (.retryAfter d,
           { w1 with
             responses := rest
             calls := w1.calls ++ [.editText txt imid dwpp mk] }) := by
      unfold takeResp pushCall
      dsimp only
      rw [hw1r, hresp]
    rw [editUnitGo_succ, hpre]
    dsimp only
    rw [hts]
    rfl
  | sendMedia imid md mk =>
    have hceq : TCall.editMedia imid md mk = c := by
      simpa [sendCall] using hc
    subst hceq
    have hts : takeResp (pushCall (.editMedia imid md mk) w1)
        = (.retryAfter d,
           { w1 with
             responses := rest
             calls := w1.calls ++ [.editMedia imid md mk] }) := by
      unfold takeResp pushCall
      dsimp only
      rw [hw1r, hresp]
    rw [editUnitGo_succ, hpre]
    dsimp only
    rw [hts]
    rfl

/-- Claim C6, witness: a text edit that is rate-limited for 5 seconds,
then succeeds. -/
theorem edit_retry_after_flood_witness :
    editPre exRetry wRetry = (.sendText "im" "hi" true (.kb [[]]), wRetry)
    ∧ sendCall (.sendText "im" "hi" true (.kb [[]]))
      = some (.editText "hi" "im" true (.kb [[]]))
    ∧ wRetry.responses = .retryAfter 5 :: [.ok]
    ∧ _edit_unit exRetry wRetry = _edit_unit exRetry wRetry2 :=
  ⟨rfl, rfl, rfl,
    edit_retry_after_flood exRetry wRetry wRetry
      (.sendText "im" "hi" true (.kb [[]])) (.editText "hi" "im" true (.kb [[]]))
      5 [.ok] rfl rfl rfl⟩

/-- Claim C7: the edit operation CAN terminate the caller with an uncaught
exception, contradicting the claim.  With a truthy `file` the broken
four-argument `isinstance` raises `TypeError`; with no explicit id, no
stored id and no originating query, `query.inline_message_id` raises
`AttributeError` on `None`.  Both are uncaught; the claim (and the spec's
"never thrown as an uncaught fault") describes the evident intent — the
adjacent code logs and returns `False` — so the code is at fault. -/
theorem edit_uncaught_exceptions_exist :
    (_edit_unit exFile wNil).1 = .raised .typeError
    ∧ (_edit_unit exNoId wNil).1 = .raised .attributeError :=
  ⟨rfl, rfl⟩

/-- Claim C8: compiling a fully tokenized matrix mutates nothing — the
matrix, the callback registry, the token supply and the unit store are
returned unchanged — and recompiling the (unchanged) matrix from the
(unchanged) state yields a structurally identical result. -/
theorem markup_tokenized_idempotent (st : GState) (m : Mat)
    (h : ∀ row ∈ m, ∀ c ∈ row, Cell.tokenized c = true) :
    (_generate_markup st (.val (.nested m))).2.1 = m
    ∧ (_generate_markup st (.val (.nested m))).2.2 = st
    ∧ _generate_markup ((_generate_markup st (.val (.nested m))).2.2)
        (.val (.nested ((_generate_markup st (.val (.nested m))).2.1)))
      = _generate_markup st (.val (.nested m)) := by
  have key : ∃ r, _generate_markup st (.val (.nested m)) = (r, m, st) := by
    rcases m with _ | ⟨row, rest⟩
    · exact ⟨.noKb, rfl⟩
    · obtain ⟨ok, hp⟩ := pass1_tokenized st.rng (row :: rest) h
      unfold _generate_markup
      dsimp only [_normalize_markup]
      rw [hp]
      dsimp only
      cases ok with
      | false => exact ⟨.noKb, rfl⟩
      | true =>
        rcases h2 : pass2 false st.custom_map (row :: rest) with ⟨res, cm1⟩
        have hcm : cm1 = st.custom_map := by
          have h0 := pass2_nosetup st.custom_map (row :: rest)
          rw [h2] at h0
          exact h0
        subst hcm
        cases res with
        | error e => exact ⟨.fail, rfl⟩
        | ok rows => exact ⟨.kb rows, rfl⟩
  obtain ⟨r, hr⟩ := key
  refine ⟨by rw [hr], by rw [hr], ?_⟩
  rw [hr]
  dsimp only
  exact hr

/-- Claim C8, witness: a one-button tokenized matrix. -/
theorem markup_tokenized_idempotent_witness :
    (∀ row ∈ ([[Cell.btn bTok]] : Mat), ∀ c ∈ row, Cell.tokenized c = true)
    ∧ (_generate_markup stTok (.val (.nested [[.btn bTok]]))).2.1 = [[.btn bTok]]
    ∧ (_generate_markup stTok (.val (.nested [[.btn bTok]]))).2.2 = stTok :=
  ⟨by decide,
   (markup_tokenized_idempotent stTok [[.btn bTok]] (by decide)).1,
   (markup_tokenized_idempotent stTok [[.btn bTok]] (by decide)).2.1⟩

/-- Claim C9, amended: a button with both `url` and `callback` keys and a
valid url is compiled as a url control — `url` takes precedence, the button
is not rejected — and a `KeyError` during translation (for example such a
button missing its `text` key in a later row) makes the whole matrix
compile return the failure value `False`. -/
theorem markup_url_callback_precedence (st : GState) (t u hd tok : String)
    (hurl : check_url u = true) :
    ((_generate_markup st (.val (.nested [[.btn (bUC t u hd tok)]]))).1
      = .kb [[.urlBtn t u]])
    ∧ ((_generate_markup st
        (.val (.nested [[.btn (bUC t u hd tok)], [.btn (bUCnoText u hd tok)]]))).1
      = .fail) := by
  constructor <;>
    simp [_generate_markup, _normalize_markup, pass1, pass1Row, mint1, pass2, pass2Row,
      translate1, truthyM, bUC, bUCnoText, hurl]

/-- Claim C9, counterexample: the claim says such a button is rejected as
structurally invalid; in fact it is compiled under the url kind. -/
theorem markup_url_callback_compiled_as_url :
    (_generate_markup stNil (.val (.nested [[.btn (bUC "t" "https://a.io/x" "h" "k")]]))).1
      = .kb [[.urlBtn "t" "https://a.io/x"]]
    ∧ GRes.kb [[.urlBtn "t" "https://a.io/x"]] ≠ .fail :=
  ⟨rfl, by decide⟩

/-- Claim C9, witness: the amended statement at a concrete valid url. -/
theorem markup_url_callback_precedence_witness :
    check_url "https://a.io/x" = true
    ∧ ((_generate_markup stNil
        (.val (.nested [[.btn (bUC "t" "https://a.io/x" "h" "k")]]))).1
      = .kb [[.urlBtn "t" "https://a.io/x"]])
    ∧ ((_generate_markup stNil
        (.val (.nested [[.btn (bUC "t" "https://a.io/x" "h" "k")],
                        [.btn (bUCnoText "https://a.io/x" "h" "k")]]))).1
      = .fail) :=
  ⟨rfl,
   (markup_url_callback_precedence stNil "t" "https://a.io/x" "h" "k" rfl).1,
   (markup_url_callback_precedence stNil "t" "https://a.io/x" "h" "k" rfl).2⟩

/-- Claim C10: a normalized matrix containing a non-dict button makes
`_generate_markup` return `None` — the same value an empty spec returns,
and a different value from the `False` used for a `KeyError` abort — so a
caller distinguishing "no keyboard" from failure reads a malformed button
as "no keyboard". -/
theorem markup_nondict_returns_none (st : GState) (m : Mat)
    (h : ∃ row ∈ m, Cell.nd ∈ row) :
    (_generate_markup st (.val (.nested m))).1 = .noKb
    ∧ (_generate_markup st (.val (.nested []))).1 = .noKb
    ∧ GRes.noKb ≠ GRes.fail := by
  refine ⟨?_, rfl, by decide⟩
  rcases m with _ | ⟨row, rest⟩
  · rcases h with ⟨r, hr, _⟩
    simp at hr
  · have hp := pass1_nd st.rng (row :: rest) h
    unfold _generate_markup
    dsimp only [_normalize_markup]
    rcases h1 : pass1 st.rng (row :: rest) with ⟨m1, rng1, s1, ok1⟩
    rw [h1] at hp
    dsimp only at hp
    subst hp
    rfl

/-- Claim C10, witness: a matrix with a non-dict in its second row. -/
theorem markup_nondict_returns_none_witness :
    (∃ row ∈ ([[Cell.btn bData], [Cell.nd]] : Mat), Cell.nd ∈ row)
    ∧ (_generate_markup stNil (.val (.nested [[Cell.btn bData], [Cell.nd]]))).1 = .noKb
    ∧ (_generate_markup stNil (.val (.nested []))).1 = .noKb :=
  ⟨⟨[Cell.nd], by decide, by decide⟩,
   (markup_nondict_returns_none stNil [[Cell.btn bData], [Cell.nd]]
      ⟨[Cell.nd], by decide, by decide⟩).1,
   (markup_nondict_returns_none stNil [[Cell.btn bData], [Cell.nd]]
      ⟨[Cell.nd], by decide, by decide⟩).2.1⟩

end Hikka
